import Mathlib

/-!
Shallow embedding of the tokio-uring-reactor crate
(src/tokio-uring-reactor/src/reactor.rs) in Lean 4, together with proofs
about its completion-dispatch and park-loop logic.

Modelling conventions:
* Machine integers become `Nat` / `Int`; file descriptors (`RawFd`, an
  `i32`) become `Int`; the 64-bit completion tag (`user_data: u64`)
  becomes `Nat`.
* The kernel ring (`io_uring::Uring`, an external collaborator) is
  modelled by its interface: a free-capacity counter for the submission
  queue, a pending-submission counter, the list of accepted entries, and
  the list of immediately available completions.  Completions that an
  `enter` call makes available are an explicit input of `park_inner`.
* A Rust function that can panic is modelled with an `Option` result,
  `none` meaning the panic.
* Raw-pointer plumbing (`libc::iovec` scratch arrays, `read_buf`) is
  memory layout with no observable content at this level and is omitted;
  the file descriptor and offset carried by each submission entry are
  kept.
-/

namespace TokioUring

/-- Duration mirrors `std::time::Duration` as (seconds, nanoseconds). -/
structure Duration where
  secs : Nat
  nanos : Nat
deriving DecidableEq, Repr

/-- UringResult mirrors `registration::UringResult`: the signed result
code and the flags of one completion event. -/
structure UringResult where
  result : Int
  flags : Nat
deriving DecidableEq, Repr

/-- TimerState mirrors `timerfd::TimerState` restricted to the two
states the reactor uses: `Oneshot d` and `Disarmed`. -/
inductive TimerState where
  | Oneshot (d : Duration)
  | Disarmed
deriving DecidableEq, Repr

/-- Operation kind of one submission-queue entry (`readv`, `writev` or
`poll_add`), with the argument relevant to the model. -/
inductive OpKind where
  | pollAdd (flags : Nat)
  | readv (offset : Nat)
  | writev (offset : Nat)
deriving DecidableEq, Repr

/-- One submission-queue entry: operation, target descriptor and the
64-bit `user_data` tag. -/
structure Entry where
  op : OpKind
  fd : Int
  user_data : Nat
deriving DecidableEq, Repr

/-- One completion-queue event `(user_data, res, flags)`. -/
structure Cqe where
  user_data : Nat
  res : Int
  flags : Nat
deriving DecidableEq, Repr

/-- Model of the external `io_uring::Uring` ring: remaining submission
capacity, count of pending (submitted but not yet entered) requests, the
entries accepted so far, and the immediately available completions. -/
structure Uring where
  sq_free : Nat
  pending : Nat
  submitted : List Entry
  cq : List Cqe
deriving DecidableEq, Repr

/-- Model of `submission_queue().bulk().submit_with(..)`: fails (and
leaves the ring unchanged) when the submission queue is full, otherwise
records the entry and counts it as pending. -/
def Uring.submit_with (r : Uring) (e : Entry) : Uring × Bool :=
  if r.sq_free = 0 then (r, false)
  else ({ r with
            sq_free := r.sq_free - 1
            pending := r.pending + 1
            submitted := r.submitted ++ [e] }, true)

/-- Modelled from the spec (§6 WakePrimitive): `unpark::Park` is not
under src/.  It is a pollable descriptor plus a cross-thread signal:
`pending` reports a pending signal, `clear_event` consumes it, and the
`enter` gate may veto blocking.  The gate's verdict is kept as an
independent field because a signal may race in between the `pending`
check and the gate. -/
structure Park where
  fd : Int
  event_set : Bool
  allow_wait_gate : Bool
deriving DecidableEq, Repr

/-- Modelled from the spec: `Park::pending()` reports a pending wake signal. -/
def Park.pending (p : Park) : Bool := p.event_set

/-- Modelled from the spec: `Park::clear_event()` consumes the wake signal. -/
def Park.clear_event (p : Park) : Park := { p with event_set := false }

/-- Result of `Park::enter()`: the gate that may veto blocking. -/
structure ParkEnter where
  allow_wait : Bool
deriving DecidableEq, Repr

/-- Modelled from the spec: `Park::enter()` yields the enter gate. -/
def Park.enter (p : Park) : ParkEnter := ⟨p.allow_wait_gate⟩

/-- CompletionState mirrors `reactor::CompletionState`: the state
mutated during uring completion handling. -/
structure CompletionState where
  requeue_timer : Bool
  timer_pending : Bool
  requeue_park : Bool
  active_wait : Nat
  park : Park
deriving DecidableEq, Repr

/-- Sentinel tag of the timer poll watch (`CompletionState::TIMER`). -/
def CompletionState.TIMER : Nat := 0x1

/-- Sentinel tag of the park/wake poll watch (`CompletionState::PARK`). -/
def CompletionState.PARK : Nat := 0x3

/-- Observable effect of dispatching one completion: discarded
(tag 0), delivered to the registration decoded from the tag
(`RawRegistration::from_user_data` + `notify`, modelled as an event
since the registration module is specified by its §4.1 contract),
timer sentinel, or park/wake sentinel. -/
inductive CompletionEffect where
  | discarded
  | delivered (user_data : Nat) (result : UringResult)
  | timerFired
  | parkWake
deriving DecidableEq, Repr

/-- CompletionState.handle_completion mirrors
`CompletionState::handle_completion`.  `none` models the
`panic!("unknown event: ..")` on an unrecognized odd tag.  The Rust
`self.active_wait -= 1` is a `usize` decrement (panics in debug builds
on underflow); theorems about it assume a positive count. -/
def CompletionState.handle_completion (s : CompletionState) (user_data : Nat)
    (result : UringResult) : Option (CompletionState × CompletionEffect) :=
  if user_data = 0 then
    -- fire-and-forget command (POLL_DEL)
    some (s, .discarded)
  else
    let s := { s with active_wait := s.active_wait - 1 }
    if user_data % 2 = 0 then
      some (s, .delivered user_data result)
    else if user_data = CompletionState.TIMER then
      some ({ s with requeue_timer := true, timer_pending := true }, .timerFired)
    else if user_data = CompletionState.PARK then
      some ({ s with park := s.park.clear_event, requeue_park := true }, .parkWake)
    else
      none

/-- Folds `handle_completion` over a list of completion events, as the
loop in `Inner::check_completions` does; `none` propagates a panic. -/
def drainAll (s : CompletionState) :
    List Cqe → Option (CompletionState × List CompletionEffect)
  | [] => some (s, [])
  | c :: rest =>
    match s.handle_completion c.user_data ⟨c.res, c.flags⟩ with
    | none => none
    | some (s', eff) =>
      match drainAll s' rest with
      | none => none
      | some (s'', effs) => some (s'', eff :: effs)

/-- Inner mirrors `reactor::Inner` (the fields the model observes: the
ring, the completion state, and the timerfd's descriptor and state; the
scratch read buffer and iovec are raw memory and omitted). -/
structure Inner where
  uring : Uring
  completion_state : CompletionState
  timerfd_fd : Int
  timerfd_state : TimerState
deriving DecidableEq, Repr

/-- PollFlags::IN of the timer/park poll watches, as a bit value. -/
def POLLIN : Nat := 0x1

/-- Inner.check_completions mirrors `Inner::check_completions`: drains
every immediately available completion, returns whether at least one
was received, plus the dispatch effects. -/
def Inner.check_completions (inner : Inner) :
    Option (Inner × Bool × List CompletionEffect) :=
  match drainAll inner.completion_state inner.uring.cq with
  | none => none
  | some (cs', effs) =>
    some ({ inner with
              completion_state := cs'
              uring := { inner.uring with cq := [] } },
          !inner.uring.cq.isEmpty, effs)

/-- Inner.queue_timer_poll mirrors `Inner::queue_timer_poll`: submit a
`poll_add(IN)` on the timerfd tagged `TIMER`; on success count one more
outstanding operation.  The `Bool` is `true` for `Ok(())`. -/
def Inner.queue_timer_poll (inner : Inner) : Inner × Bool :=
  let fd := inner.timerfd_fd
  match inner.uring.submit_with ⟨.pollAdd POLLIN, fd, CompletionState.TIMER⟩ with
  | (ring, false) => ({ inner with uring := ring }, false)
  | (ring, true) =>
    ({ inner with
         uring := ring
         completion_state :=
           { inner.completion_state with
               active_wait := inner.completion_state.active_wait + 1 } }, true)

/-- Inner.queue_park_read mirrors `Inner::queue_park_read`: submit a
`poll_add(IN)` on the park descriptor tagged `PARK`; on success count
one more outstanding operation. -/
def Inner.queue_park_read (inner : Inner) : Inner × Bool :=
  let fd := inner.completion_state.park.fd
  match inner.uring.submit_with ⟨.pollAdd POLLIN, fd, CompletionState.PARK⟩ with
  | (ring, false) => ({ inner with uring := ring }, false)
  | (ring, true) =>
    ({ inner with
         uring := ring
         completion_state :=
           { inner.completion_state with
               active_wait := inner.completion_state.active_wait + 1 } }, true)

/-- Inner.queue_async_read mirrors `Inner::queue_async_read`: submit a
`readv` entry carrying the registration's tag (`reg.into_user_data()`);
on success count one more outstanding operation. -/
def Inner.queue_async_read (inner : Inner) (fd : Int) (offset : Nat)
    (user_data : Nat) : Inner × Bool :=
  match inner.uring.submit_with ⟨.readv offset, fd, user_data⟩ with
  | (ring, false) => ({ inner with uring := ring }, false)
  | (ring, true) =>
    ({ inner with
         uring := ring
         completion_state :=
           { inner.completion_state with
               active_wait := inner.completion_state.active_wait + 1 } }, true)

/-- Inner.queue_async_write mirrors `Inner::queue_async_write`. -/
def Inner.queue_async_write (inner : Inner) (fd : Int) (offset : Nat)
    (user_data : Nat) : Inner × Bool :=
  match inner.uring.submit_with ⟨.writev offset, fd, user_data⟩ with
  | (ring, false) => ({ inner with uring := ring }, false)
  | (ring, true) =>
    ({ inner with
         uring := ring
         completion_state :=
           { inner.completion_state with
               active_wait := inner.completion_state.active_wait + 1 } }, true)

/-- Inner.queue_async_poll mirrors `Inner::queue_async_poll`. -/
def Inner.queue_async_poll (inner : Inner) (fd : Int) (flags : Nat)
    (user_data : Nat) : Inner × Bool :=
  match inner.uring.submit_with ⟨.pollAdd flags, fd, user_data⟩ with
  | (ring, false) => ({ inner with uring := ring }, false)
  | (ring, true) =>
    ({ inner with
         uring := ring
         completion_state :=
           { inner.completion_state with
               active_wait := inner.completion_state.active_wait + 1 } }, true)

/-- Record of the one `io_uring_enter` call a park turn may make:
its arguments `(to_submit, min_complete, GETEVENTS?)`, plus a snapshot
of the two requeue flags at the moment of the call (observation only,
used to state that the reactor never blocks with a watch unarmed). -/
structure EnterCall where
  to_submit : Nat
  min_complete : Nat
  getevents : Bool
  requeue_timer_at : Bool
  requeue_park_at : Bool
deriving DecidableEq, Repr

/-- Observation record of one park turn: every `timerfd.set_state` call
in order, and the `enter` call if one was made. -/
structure ParkTrace where
  timer_sets : List TimerState
  enter : Option EnterCall
deriving DecidableEq, Repr

/-- Result of a non-panicking park turn: the final reactor state, the
observation trace, and whether the turn returned `Ok` (`io_ok = false`
models the `?` on a failed `enter` syscall). -/
structure ParkOutcome where
  inner : Inner
  trace : ParkTrace
  io_ok : Bool
deriving DecidableEq, Repr

/-- Body of the `if wait { .. }` block of `Inner::park_inner`: arm or
disarm the timerfd according to `timeout`, then (re)submit the timer
poll watch if needed.  Returns the new state, the possibly downgraded
`wait`, and the `set_state` calls made.  The Rust block also carries a
`debug_assert!(timeout != 0)`; the zero timeout never reaches this block
because `park_timeout` maps it to `wait = false`. -/
def Inner.parkTimerSet (inner : Inner) (timeout : Option Duration) :
    Inner × List TimerState :=
  match timeout with
  | some t =>
    -- set timer before we requeue it
    ({ inner with
         timerfd_state := .Oneshot t
         completion_state := { inner.completion_state with timer_pending := false } },
     [TimerState.Oneshot t])
  | none =>
    if inner.completion_state.timer_pending then
      -- disarm timer after it triggered (instead of reading it)
      ({ inner with
           timerfd_state := .Disarmed
           completion_state := { inner.completion_state with timer_pending := false } },
       [TimerState.Disarmed])
    else (inner, [])

/-- Timer-watch half of the wait block: run the `set_state` step, then
(re)submit the timer poll watch if `requeue_timer` is set, downgrading
`wait` on a full ring. -/
def Inner.parkTimerBlock (inner : Inner) (timeout : Option Duration) :
    Inner × Bool × List TimerState :=
  let (inner, sets) := inner.parkTimerSet timeout
  if inner.completion_state.requeue_timer then
    match inner.queue_timer_poll with
    | (innerQ, false) =>
      -- never wait if submission queue is full and we couldn't insert timer
      (innerQ, false, sets)
    | (innerQ, true) =>
      ({ innerQ with
           completion_state := { innerQ.completion_state with requeue_timer := false } },
       true, sets)
  else (inner, true, sets)

/-- The `if wait { .. }` statement of `Inner::park_inner` as a whole:
run the timer block when still waiting, otherwise pass the state
through (with `wait` false and no `set_state` calls). -/
def Inner.parkWaitSetup (inner : Inner) (w : Bool) (timeout : Option Duration) :
    Inner × Bool × List TimerState :=
  if w then inner.parkTimerBlock timeout else (inner, false, [])

/-- The `if wait && requeue_park { .. }` statement of
`Inner::park_inner`: (re)submit the wake-descriptor poll watch,
downgrading `wait` on a full ring. -/
def Inner.parkParkBlock (inner : Inner) (w : Bool) : Inner × Bool :=
  if w && inner.completion_state.requeue_park then
    match inner.queue_park_read with
    | (innerQ, false) =>
      -- never wait if submission queue is full and we couldn't insert park
      (innerQ, false)
    | (innerQ, true) =>
      ({ innerQ with
           completion_state := { innerQ.completion_state with requeue_park := false } },
       true)
  else (inner, w)

/-- Tail of `Inner::park_inner`: the enter gate, the optional
`io_uring_enter` call, and the final drain.  `sets` is the trace of
`set_state` calls accumulated so far; `cq2` is the list of completions
the `enter` call makes available; `enter_ok` is whether that syscall
succeeds. -/
def Inner.parkFinish (inner : Inner) (w : Bool) (sets : List TimerState)
    (cq2 : List Cqe) (enter_ok : Bool) : Option ParkOutcome :=
  let pending := inner.uring.pending
  let gate := inner.completion_state.park.enter
  let w := if gate.allow_wait then w else false
  if pending = 0 ∧ w = false then
    -- nothing to submit and not waiting, not calling io_uring_enter
    some { inner := inner, trace := ⟨sets, none⟩, io_ok := true }
  else
    let mc : Nat := if w then 1 else 0
    let ec : EnterCall :=
      ⟨pending, mc, w,
       inner.completion_state.requeue_timer, inner.completion_state.requeue_park⟩
    let inner := { inner with uring := { inner.uring with pending := 0, cq := cq2 } }
    if enter_ok then
      match inner.check_completions with
      | none => none
      | some (inner', _, _) =>
        some { inner := inner', trace := ⟨sets, some ec⟩, io_ok := true }
    else
      some { inner := inner, trace := ⟨sets, some ec⟩, io_ok := false }

/-- Remainder of `Inner::park_inner` after the initial drain and the two
poll-only downgrades: timer block, park-watch requeue, enter gate,
`io_uring_enter`, final drain. -/
def Inner.parkRest (inner : Inner) (w : Bool) (timeout : Option Duration)
    (cq2 : List Cqe) (enter_ok : Bool) : Option ParkOutcome :=
  let s1 := inner.parkWaitSetup w timeout
  let s2 := s1.1.parkParkBlock s1.2.1
  s2.1.parkFinish s2.2 s1.2.2 cq2 enter_ok

/-- Inner.park_inner mirrors `Inner::park_inner`: drain available
completions (downgrading to poll-only if any arrived), downgrade if a
wake signal is pending, then run the rest of the turn. -/
def Inner.park_inner (inner : Inner) (wait : Bool) (timeout : Option Duration)
    (cq2 : List Cqe) (enter_ok : Bool) : Option ParkOutcome :=
  match inner.check_completions with
  | none => none
  | some (inner, received, _) =>
    -- don't wait for new events below; we first need to handle this one
    let w := if received then false else wait
    -- proper check later, but don't need to setup various things if
    -- we already know we're not going to wait
    let w := if inner.completion_state.park.pending then false else w
    inner.parkRest w timeout cq2 enter_ok

/-- Inner.park mirrors `Inner::park`. -/
def Inner.park (inner : Inner) (cq2 : List Cqe) (enter_ok : Bool) :
    Option ParkOutcome :=
  inner.park_inner true none cq2 enter_ok

/-- Inner.park_timeout mirrors `Inner::park_timeout`: a zero duration
means don't wait at all. -/
def Inner.park_timeout (inner : Inner) (duration : Duration) (cq2 : List Cqe)
    (enter_ok : Bool) : Option ParkOutcome :=
  if duration = ⟨0, 0⟩ then
    inner.park_inner false none cq2 enter_ok
  else
    inner.park_inner true (some duration) cq2 enter_ok

/-- Modelled from the spec (§4.1 Slot): the `registration` module is
not under src/.  A `Registration` owns an operation's payload, the
even nonzero tag `encode_tag` derived from the Slot's address (the
address is a parameter of the model), and the outcome once `deliver`
stored one.  `abort` reclaims the payload when the submission never
reached the kernel. -/
structure Registration (T : Type) where
  tag : Nat
  outcome : Option UringResult
  data : T
deriving DecidableEq, Repr

/-- Modelled from the spec: `Registration::new` starts armed with no outcome. -/
def Registration.new (tag : Nat) (data : T) : Registration T :=
  ⟨tag, none, data⟩

/-- Modelled from the spec: `reg.to_raw().into_user_data()` is the encoded tag. -/
def Registration.to_raw (r : Registration T) : Nat := r.tag

/-- Modelled from the spec: `Registration::abort` reclaims the payload
of a never-submitted operation. -/
def Registration.abort (r : Registration T) : Option T := some r.data

/-- Modelled from the spec: polling a registration yields the stored
outcome together with the payload once `deliver` ran, else not-ready. -/
def Registration.poll (r : Registration T) : Option (UringResult × T) :=
  r.outcome.map (fun u => (u, r.data))

/-- Modelled from the spec: `poll_stream_and_reset` takes the stored
outcome (if any) and resets the registration for the next cycle. -/
def Registration.poll_stream_and_reset (r : Registration T) :
    Option UringResult × Registration T :=
  (r.outcome, { r with outcome := none })

/-- Errors of the caller-visible API, mirroring how `reactor.rs` builds
`io::Error` values: `reactorDead` is `"uring reactor dead"`, `sqFull` is
`sq_full_map_err`'s `"submission queue full"`, and `osError code` is
`io::Error::from_raw_os_error(code)` with exactly the code passed. -/
inductive IoError where
  | reactorDead
  | sqFull
  | osError (code : Int)
deriving DecidableEq, Repr

/-- Poll mirrors `futures::Poll<A, E>` (`Result<Async<A>, E>`). -/
inductive Poll (A E : Type) where
  | notReady
  | ready (value : A)
  | err (e : E)
deriving DecidableEq, Repr

/-- ReadContext mirrors `reactor::ReadContext` (the scratch iovec is a
raw pointer into `buf` and is omitted). -/
structure ReadContext (T F : Type) where
  buf : T
  file : F
deriving DecidableEq, Repr

/-- AsyncReadState mirrors `reactor::AsyncReadState`. -/
inductive AsyncReadState (T F : Type) where
  | Pending (reg : Registration (ReadContext T F))
  | InitFailed (e : IoError) (buf : T) (file : F)
  | Closed
deriving DecidableEq, Repr

/-- AsyncRead mirrors `reactor::AsyncRead`. -/
structure AsyncRead (T F : Type) where
  state : AsyncReadState T F
deriving DecidableEq, Repr

/-- AsyncRead.poll mirrors `<AsyncRead as futures::Future>::poll`:
`none` models the `panic!("already finished")` of polling a closed
future.  A non-negative result is cast `as usize` (`Int.toNat`); a
negative one is passed to `io::Error::from_raw_os_error` unchanged. -/
def AsyncRead.poll (a : AsyncRead T F) :
    Option (AsyncRead T F × Poll (Nat × T × F) (IoError × T × F)) :=
  match a.state with
  | .Pending reg =>
    match reg.poll with
    | none => some (⟨.Pending reg⟩, .notReady)
    | some (r, d) =>
      let result : Poll (Nat × T × F) (IoError × T × F) :=
        if r.result < 0 then .err (.osError r.result, d.buf, d.file)
        else .ready (r.result.toNat, d.buf, d.file)
      some (⟨.Closed⟩, result)
  | .InitFailed e buf file => some (⟨.Closed⟩, .err (e, buf, file))
  | .Closed => none

/-- WriteContext mirrors `reactor::WriteContext` (iovec omitted as for
reads). -/
structure WriteContext (T F : Type) where
  buf : T
  file : F
deriving DecidableEq, Repr

/-- AsyncWrite mirrors `reactor::AsyncWrite`: a bare registration. -/
structure AsyncWrite (T F : Type) where
  reg : Registration (WriteContext T F)
deriving DecidableEq, Repr

/-- AsyncWrite.poll mirrors `<AsyncWrite as futures::Future>::poll`. -/
def AsyncWrite.poll (a : AsyncWrite T F) :
    AsyncWrite T F × Poll (Nat × T × F) (IoError × T × F) :=
  match a.reg.poll with
  | none => (a, .notReady)
  | some (r, d) =>
    if r.result < 0 then (a, .err (.osError r.result, d.buf, d.file))
    else (a, .ready (r.result.toNat, d.buf, d.file))

/-- Handle mirrors `reactor::Handle`: a weak reference to the reactor
core; the field holds the result an upgrade would produce (`none` once
the core is torn down). -/
structure Handle where
  weak : Option Inner
deriving DecidableEq, Repr

/-- Handle.inner_mut mirrors `Handle::inner_mut`: upgrade or fail with
the `"uring reactor dead"` error. -/
def Handle.inner_mut (h : Handle) : Except IoError Inner :=
  match h.weak with
  | none => .error .reactorDead
  | some inner => .ok inner

/-- Handle.async_read mirrors `Handle::async_read`.  The file's raw
descriptor and the fresh Slot address (tag) are parameters; the
possibly updated reactor core is returned alongside the future.  On a
dead reactor or a full submission queue the future starts in
`InitFailed` carrying the payload back (the ring-full path goes through
`Registration::abort`). -/
def Handle.async_read (h : Handle) (fd : Int) (offset : Nat) (buf : T)
    (file : F) (tag : Nat) : Handle × AsyncRead T F :=
  match h.inner_mut with
  | .error e => (h, ⟨.InitFailed e buf file⟩)
  | .ok inner =>
    let rc : ReadContext T F := ⟨buf, file⟩
    let reg := Registration.new tag rc
    match inner.queue_async_read fd offset reg.to_raw with
    | (inner', true) => (⟨some inner'⟩, ⟨.Pending reg⟩)
    | (inner', false) =>
      match reg.abort with
      | some data =>
        (⟨some inner'⟩, ⟨.InitFailed (.sqFull) data.buf data.file⟩)
      | none =>
        -- unreachable: `reg.abort().expect("registration data")`
        (⟨some inner'⟩, ⟨.Closed⟩)

/-- Handle.async_write mirrors `Handle::async_write`: unlike
`async_read` it returns `io::Result<AsyncWrite>`, so both failure paths
(`inner_mut()?` and `queue_async_write(..)?`) return a bare `io::Error`
while the registration holding the buffer and file is dropped. -/
def Handle.async_write (h : Handle) (fd : Int) (offset : Nat) (buf : T)
    (file : F) (tag : Nat) : Handle × Except IoError (AsyncWrite T F) :=
  match h.inner_mut with
  | .error e => (h, .error e)
  | .ok inner =>
    let rc : WriteContext T F := ⟨buf, file⟩
    let reg := Registration.new tag rc
    match inner.queue_async_write fd offset reg.to_raw with
    | (inner', true) => (⟨some inner'⟩, .ok ⟨reg⟩)
    | (inner', false) => (⟨some inner'⟩, .error .sqFull)

/-- AsyncPoll mirrors `reactor::AsyncPoll`. -/
structure AsyncPoll where
  handle : Handle
  fd : Int
  active : Bool
  flags : Nat
  registration : Registration Unit
deriving DecidableEq, Repr

/-- Handle.async_poll mirrors `Handle::async_poll`: pure construction,
no upgrade, no submission; the stream starts inactive. -/
def Handle.async_poll (h : Handle) (fd : Int) (flags : Nat) (tag : Nat) :
    AsyncPoll :=
  { handle := h
    fd := fd
    active := false
    flags := flags
    registration := Registration.new tag () }

/-- AsyncPoll.poll mirrors `<AsyncPoll as futures::Stream>::poll`: when
inactive, upgrade the handle and submit one poll watch (either `?`
failure leaves the stream inactive); when active, report the stored
readiness (`as u16`, then `PollFlags::from_bits_truncate`) or the error
for a negative result, going inactive again. -/
def AsyncPoll.poll (a : AsyncPoll) : AsyncPoll × Poll (Option Nat) IoError :=
  if !a.active then
    match a.handle.inner_mut with
    | .error e => (a, .err e)
    | .ok inner =>
      match inner.queue_async_poll a.fd a.flags a.registration.to_raw with
      | (inner', true) =>
        -- registration.track() registers the waiter; no observable state here
        ({ a with handle := ⟨some inner'⟩, active := true }, .notReady)
      | (inner', false) =>
        ({ a with handle := ⟨some inner'⟩ }, .err .sqFull)
  else
    match a.registration.poll_stream_and_reset with
    | (none, reg') => ({ a with registration := reg' }, .notReady)
    | (some r, reg') =>
      let a := { a with registration := reg', active := false }
      if r.result < 0 then (a, .err (.osError r.result))
      else (a, .ready (some (r.result.toNat % 65536)))

/-! ## Concrete states used by witnesses and counterexamples -/

/-- Concrete wake primitive state: no pending signal, gate allows waiting. -/
def parkW : Park := { fd := 6, event_set := false, allow_wait_gate := true }

/-- Concrete completion state with five outstanding operations. -/
def csW : CompletionState :=
  { requeue_timer := false
    timer_pending := false
    requeue_park := false
    active_wait := 5
    park := parkW }

/-- Concrete reactor state: empty completion queue, one free submission
slot, no outstanding operations. -/
def innerW : Inner :=
  { uring := { sq_free := 1, pending := 0, submitted := [], cq := [] }
    completion_state := { csW with active_wait := 0 }
    timerfd_fd := 4
    timerfd_state := .Disarmed }

/-- Concrete reactor state with a full submission queue. -/
def innerWFull : Inner :=
  { innerW with uring := { innerW.uring with sq_free := 0 } }

/-! ## Claim C2 — completion dispatch by tag -/

/-- C2: dispatch of a drained completion behaves by tag: tag 0 is
discarded with no other state change; a nonzero even tag is delivered
to its decoded registration; `TIMER` (0x1) sets `requeue_timer` and
`timer_pending`; `PARK` (0x3) clears the wake event and sets
`requeue_park`; any other odd tag panics (`none`). -/
theorem handle_completion_dispatch (cs : CompletionState) (r : UringResult) :
    (CompletionState.handle_completion cs 0 r = some (cs, .discarded)) ∧
    (∀ ud, ud ≠ 0 → ud % 2 = 0 →
      CompletionState.handle_completion cs ud r =
        some ({ cs with active_wait := cs.active_wait - 1 }, .delivered ud r)) ∧
    (CompletionState.handle_completion cs CompletionState.TIMER r =
      some ({ cs with active_wait := cs.active_wait - 1
                      requeue_timer := true
                      timer_pending := true }, .timerFired)) ∧
    (CompletionState.handle_completion cs CompletionState.PARK r =
      some ({ cs with active_wait := cs.active_wait - 1
                      park := cs.park.clear_event
                      requeue_park := true }, .parkWake)) ∧
    (∀ ud, ud % 2 = 1 → ud ≠ CompletionState.TIMER → ud ≠ CompletionState.PARK →
      CompletionState.handle_completion cs ud r = none) := by
  refine ⟨?_, ?_, ?_, ?_, ?_⟩
  · simp [CompletionState.handle_completion]
  · intro ud h0 h2
    simp [CompletionState.handle_completion, h0, h2]
  · simp [CompletionState.handle_completion, CompletionState.TIMER]
  · simp [CompletionState.handle_completion, CompletionState.PARK,
          CompletionState.TIMER]
  · intro ud h2 hT hP
    have h0 : ud ≠ 0 := by omega
    have heven : ¬ ud % 2 = 0 := by omega
    simp [CompletionState.handle_completion, h0, heven, hT, hP]

/-- Witness for C2 at concrete inputs: an even tag (4) is delivered,
an unknown odd tag (5) panics. -/
theorem handle_completion_dispatch_witness :
    (CompletionState.handle_completion csW 4 ⟨7, 0⟩ =
      some ({ csW with active_wait := csW.active_wait - 1 }, .delivered 4 ⟨7, 0⟩)) ∧
    (CompletionState.handle_completion csW 5 ⟨7, 0⟩ = none) :=
  ⟨(handle_completion_dispatch csW ⟨7, 0⟩).2.1 4 (by decide) (by decide),
   (handle_completion_dispatch csW ⟨7, 0⟩).2.2.2.2 5 (by decide) (by decide) (by decide)⟩

/-! ## Claim C5 — active_wait accounting (corrected: tag 0 does NOT
decrement) -/

/-- Counterexample for C5 as stated: a tag-0 completion leaves
`active_wait` at 5 instead of decrementing it to 4. -/
theorem handle_completion_tag0_no_decrement :
    (CompletionState.handle_completion csW 0 ⟨0, 0⟩).map
        (fun p => p.1.active_wait) = some 5 ∧
    ¬ ((CompletionState.handle_completion csW 0 ⟨0, 0⟩).map
        (fun p => p.1.active_wait) = some (csW.active_wait - 1)) := by
  decide

/-- C5 amended: every completion with a nonzero tag — even tags and the
sentinels 0x1/0x3 — decrements `active_wait` exactly once; a tag-0
(fire-and-forget) completion leaves the state, hence the count,
unchanged. -/
theorem handle_completion_active_wait (cs : CompletionState) (ud : Nat)
    (r : UringResult) :
    (∀ out, ud ≠ 0 → 0 < cs.active_wait →
      CompletionState.handle_completion cs ud r = some out →
      out.1.active_wait + 1 = cs.active_wait) ∧
    (CompletionState.handle_completion cs 0 r = some (cs, .discarded)) := by
  constructor
  · intro out h0 hpos h
    unfold CompletionState.handle_completion at h
    rw [if_neg h0] at h
    split at h
    · cases h
      simp
      omega
    · split at h
      · cases h
        simp
        omega
      · split at h
        · cases h
          simp
          omega
        · exact absurd h (by simp)
  · simp [CompletionState.handle_completion]

/-- Witness for the amended C5: the timer sentinel (0x1) takes the
count from 5 to 4, and a tag-0 completion leaves the state unchanged. -/
theorem handle_completion_active_wait_witness :
    ((CompletionState.handle_completion csW CompletionState.TIMER ⟨0, 0⟩).map
        (fun p => p.1.active_wait + 1) = some csW.active_wait) ∧
    (CompletionState.handle_completion csW 0 ⟨0, 0⟩ = some (csW, .discarded)) := by
  have h := handle_completion_active_wait csW CompletionState.TIMER ⟨0, 0⟩
  have h1 := h.1 ({ csW with active_wait := 4
                             requeue_timer := true
                             timer_pending := true }, .timerFired)
    (by decide) (by decide) (by decide)
  refine ⟨?_, h.2⟩
  rw [show CompletionState.handle_completion csW CompletionState.TIMER ⟨0, 0⟩ =
      some ({ csW with active_wait := 4
                       requeue_timer := true
                       timer_pending := true }, .timerFired) from by decide]
  simp at h1 ⊢
  omega

/-! ## Claim C10 — submission helpers and active_wait atomicity -/

/-- C10: each submission helper increments `active_wait` exactly once
when the ring accepts the request, and leaves the whole reactor state
unchanged when submission fails with a ring-full error. -/
theorem queue_helpers_active_wait (inner : Inner) (fd : Int)
    (offset ud flags : Nat) :
    ((inner.queue_timer_poll).2 = true →
      (inner.queue_timer_poll).1.completion_state.active_wait
        = inner.completion_state.active_wait + 1) ∧
    ((inner.queue_timer_poll).2 = false → (inner.queue_timer_poll).1 = inner) ∧
    ((inner.queue_park_read).2 = true →
      (inner.queue_park_read).1.completion_state.active_wait
        = inner.completion_state.active_wait + 1) ∧
    ((inner.queue_park_read).2 = false → (inner.queue_park_read).1 = inner) ∧
    ((inner.queue_async_read fd offset ud).2 = true →
      (inner.queue_async_read fd offset ud).1.completion_state.active_wait
        = inner.completion_state.active_wait + 1) ∧
    ((inner.queue_async_read fd offset ud).2 = false →
      (inner.queue_async_read fd offset ud).1 = inner) ∧
    ((inner.queue_async_write fd offset ud).2 = true →
      (inner.queue_async_write fd offset ud).1.completion_state.active_wait
        = inner.completion_state.active_wait + 1) ∧
    ((inner.queue_async_write fd offset ud).2 = false →
      (inner.queue_async_write fd offset ud).1 = inner) ∧
    ((inner.queue_async_poll fd flags ud).2 = true →
      (inner.queue_async_poll fd flags ud).1.completion_state.active_wait
        = inner.completion_state.active_wait + 1) ∧
    ((inner.queue_async_poll fd flags ud).2 = false →
      (inner.queue_async_poll fd flags ud).1 = inner) := by
  by_cases hq : inner.uring.sq_free = 0 <;>
    refine ⟨?_, ?_, ?_, ?_, ?_, ?_, ?_, ?_, ?_, ?_⟩ <;>
    simp [Inner.queue_timer_poll, Inner.queue_park_read, Inner.queue_async_read,
          Inner.queue_async_write, Inner.queue_async_poll, Uring.submit_with, hq]

/-- Witness for C10: on a ring with one free submission slot the timer
helper succeeds and takes `active_wait` from 0 to 1; on a full ring it
fails and leaves the state untouched. -/
theorem queue_helpers_active_wait_witness :
    ((innerW.queue_timer_poll).1.completion_state.active_wait
       = innerW.completion_state.active_wait + 1) ∧
    ((innerWFull.queue_timer_poll).1 = innerWFull) :=
  ⟨(queue_helpers_active_wait innerW 3 0 8 1).1 (by decide),
   (queue_helpers_active_wait innerWFull 3 0 8 1).2.1 (by decide)⟩

/-! ## Claim C3 — payload round-trip on submission failure
(corrected: holds for async_read, but async_write drops the payload) -/

/-- Counterexample for C3 as stated: a failed `async_write` returns the
bare error `"uring reactor dead"`; the value is identical for two
different (buffer, file) payloads, so it cannot carry back the exact
buffer and file that were passed in. -/
theorem async_write_failure_drops_payload :
    (Handle.async_write ⟨none⟩ 3 0 (42 : Nat) (7 : Nat) 2).2 =
      Except.error IoError.reactorDead ∧
    (Handle.async_write ⟨none⟩ 3 0 (42 : Nat) (7 : Nat) 2).2 =
      (Handle.async_write ⟨none⟩ 3 0 (99 : Nat) (13 : Nat) 2).2 ∧
    ((42 : Nat), (7 : Nat)) ≠ ((99 : Nat), (13 : Nat)) :=
  ⟨rfl, rfl, by decide⟩

/-- C3 amended: `async_read`'s submission-time failures (dead reactor,
ring full) return a future in `InitFailed` carrying back exactly the
buffer and file passed in; `async_write`'s submission-time failures
return only the `io::Error`, dropping the buffer and file. -/
theorem async_submission_failure_payload (fd : Int) (offset : Nat) (buf : T)
    (file : F) (tag : Nat) (inner : Inner) :
    ((Handle.async_read ⟨none⟩ fd offset buf file tag).2 =
      ⟨.InitFailed .reactorDead buf file⟩) ∧
    (inner.uring.sq_free = 0 →
      (Handle.async_read ⟨some inner⟩ fd offset buf file tag).2 =
        ⟨.InitFailed .sqFull buf file⟩) ∧
    ((Handle.async_write ⟨none⟩ fd offset buf file tag).2 =
      Except.error IoError.reactorDead) ∧
    (inner.uring.sq_free = 0 →
      (Handle.async_write ⟨some inner⟩ fd offset buf file tag).2 =
        Except.error IoError.sqFull) := by
  refine ⟨rfl, ?_, rfl, ?_⟩ <;>
    intro hq <;>
    simp [Handle.async_read, Handle.async_write, Handle.inner_mut,
          Inner.queue_async_read, Inner.queue_async_write, Uring.submit_with,
          hq, Registration.new, Registration.to_raw, Registration.abort]

/-- Witness for the amended C3: a concrete ring-full `async_read`
returns `InitFailed` with the original buffer 42 and file 7. -/
theorem async_submission_failure_payload_witness :
    (Handle.async_read ⟨some innerWFull⟩ 3 0 (42 : Nat) (7 : Nat) 2).2 =
      ⟨.InitFailed .sqFull 42 7⟩ ∧
    (Handle.async_write ⟨some innerWFull⟩ 3 0 (42 : Nat) (7 : Nat) 2).2 =
      Except.error IoError.sqFull :=
  ⟨(async_submission_failure_payload 3 0 42 7 2 innerWFull).2.1 (by decide),
   (async_submission_failure_payload 3 0 42 7 2 innerWFull).2.2.2 (by decide)⟩

/-! ## Claim C4 — negative completion results (code_bug: the code
passes the negative value to from_raw_os_error without negating) -/

/-- C4 failing input: a completed read with stored kernel result `-2`
(the kernel encoding of errno 2) resolves to the platform error for
code `-2`, not for errno `2`: `io::Error::from_raw_os_error` receives
`r.result` unnegated.  The same conversion is used by `AsyncWrite`.
The non-negative side behaves as claimed (byte count, buffer, file). -/
theorem async_read_negative_result_unnegated :
    (AsyncRead.poll ⟨.Pending ⟨2, some ⟨-2, 0⟩, ⟨(42 : Nat), (7 : Nat)⟩⟩⟩ =
      some (⟨.Closed⟩, .err (.osError (-2), 42, 7))) ∧
    (AsyncWrite.poll ⟨⟨2, some ⟨-2, 0⟩, ⟨(42 : Nat), (7 : Nat)⟩⟩⟩ =
      (⟨⟨2, some ⟨-2, 0⟩, ⟨42, 7⟩⟩⟩, .err (.osError (-2), 42, 7))) ∧
    (IoError.osError (-2) ≠ IoError.osError 2) ∧
    (AsyncRead.poll ⟨.Pending ⟨2, some ⟨3, 0⟩, ⟨(42 : Nat), (7 : Nat)⟩⟩⟩ =
      some (⟨.Closed⟩, .ready (3, 42, 7))) := by
  refine ⟨by decide, by decide, by decide, by decide⟩

/-! ## Claim C8 — AsyncRead resolves at most once -/

/-- C8: once a poll of an `AsyncRead` returns a terminal outcome
(success, asynchronous failure, or init failure — anything but
not-ready), the future's state is `Closed`, and polling it again
panics (`none`) instead of returning data. -/
theorem async_read_resolves_once (a a' : AsyncRead T F)
    (out : Poll (Nat × T × F) (IoError × T × F))
    (h : a.poll = some (a', out)) (hnr : out ≠ .notReady) :
    a'.state = .Closed ∧ a'.poll = none := by
  obtain ⟨st⟩ := a
  cases st with
  | Pending reg =>
    cases hr : reg.poll with
    | none =>
      simp [AsyncRead.poll, hr] at h
      obtain ⟨h1, h2⟩ := h
      subst h2
      exact absurd rfl hnr
    | some rd =>
      obtain ⟨r, d⟩ := rd
      simp [AsyncRead.poll, hr] at h
      obtain ⟨h1, h2⟩ := h
      subst h1
      exact ⟨rfl, rfl⟩
  | InitFailed e buf file =>
    simp [AsyncRead.poll] at h
    obtain ⟨h1, h2⟩ := h
    subst h1
    exact ⟨rfl, rfl⟩
  | Closed =>
    simp [AsyncRead.poll] at h

/-- Witness for C8: polling a concrete init-failed read resolves it;
the resulting future is closed and a further poll panics. -/
theorem async_read_resolves_once_witness :
    (AsyncRead.state (T := Nat) (F := Nat) ⟨.Closed⟩ = .Closed) ∧
    (AsyncRead.poll (T := Nat) (F := Nat) ⟨.Closed⟩ = none) :=
  async_read_resolves_once ⟨.InitFailed .sqFull 1 2⟩ ⟨.Closed⟩
    (.err (.sqFull, 1, 2)) (by decide) (by decide)

/-! ## Claim C9 — async_poll submits nothing until first stream poll -/

/-- C9: constructing an `AsyncPoll` performs no reactor interaction and
cannot fail: the handle is stored untouched and the stream starts
inactive.  A dead reactor or full ring surfaces as an `Err` of the
stream's first poll (leaving it inactive); on success, the inactive to
active transition submits exactly one poll-watch entry. -/
theorem async_poll_lazy_submission (h : Handle) (fd : Int) (flags tag : Nat)
    (inner : Inner) :
    ((Handle.async_poll h fd flags tag).active = false) ∧
    ((Handle.async_poll h fd flags tag).handle = h) ∧
    (AsyncPoll.poll (Handle.async_poll ⟨none⟩ fd flags tag) =
      (Handle.async_poll ⟨none⟩ fd flags tag, .err .reactorDead)) ∧
    (inner.uring.sq_free = 0 →
      AsyncPoll.poll (Handle.async_poll ⟨some inner⟩ fd flags tag) =
        (Handle.async_poll ⟨some inner⟩ fd flags tag, .err .sqFull)) ∧
    (inner.uring.sq_free ≠ 0 →
      (AsyncPoll.poll (Handle.async_poll ⟨some inner⟩ fd flags tag)).2 =
          .notReady ∧
      (AsyncPoll.poll (Handle.async_poll ⟨some inner⟩ fd flags tag)).1.active =
          true ∧
      ((AsyncPoll.poll (Handle.async_poll ⟨some inner⟩ fd flags tag)).1.handle.weak.map
          (fun i => i.uring.submitted)) =
        some (inner.uring.submitted ++ [⟨.pollAdd flags, fd, tag⟩])) := by
  refine ⟨rfl, rfl, rfl, ?_, ?_⟩ <;>
    intro hq <;>
    simp [Handle.async_poll, AsyncPoll.poll, Handle.inner_mut,
          Inner.queue_async_poll, Uring.submit_with, hq,
          Registration.new, Registration.to_raw]

/-- Witness for C9: on a concrete full ring the first stream poll
reports ring-full; on a concrete ring with capacity it submits exactly
one poll-watch entry and goes active. -/
theorem async_poll_lazy_submission_witness :
    (AsyncPoll.poll (Handle.async_poll ⟨some innerWFull⟩ 3 1 8) =
      (Handle.async_poll ⟨some innerWFull⟩ 3 1 8, .err .sqFull)) ∧
    ((AsyncPoll.poll (Handle.async_poll ⟨some innerW⟩ 3 1 8)).1.handle.weak.map
        (fun i => i.uring.submitted)) =
      some (innerW.uring.submitted ++ [⟨.pollAdd 1, 3, 8⟩]) :=
  ⟨(async_poll_lazy_submission ⟨some innerWFull⟩ 3 1 8 innerWFull).2.2.2.1
      (by decide),
   ((async_poll_lazy_submission ⟨some innerW⟩ 3 1 8 innerW).2.2.2.2
      (by decide)).2.2⟩

/-! ## Supporting lemmas about the park loop -/

/-- Dispatching one completion never clears a set requeue flag: only a
later successful watch submission clears it. -/
theorem handle_completion_mono (cs : CompletionState) (ud : Nat)
    (r : UringResult) (out : CompletionState × CompletionEffect)
    (h : cs.handle_completion ud r = some out) :
    (cs.requeue_timer = true → out.1.requeue_timer = true) ∧
    (cs.requeue_park = true → out.1.requeue_park = true) := by
  unfold CompletionState.handle_completion at h
  split at h
  · cases h
    exact ⟨id, id⟩
  · split at h
    · cases h
      exact ⟨id, id⟩
    · split at h
      · cases h
        exact ⟨fun _ => rfl, id⟩
      · split at h
        · cases h
          exact ⟨id, fun _ => rfl⟩
        · cases h

/-- Draining a batch of completions never clears a set requeue flag. -/
theorem drainAll_mono (l : List Cqe) (cs cs' : CompletionState)
    (effs : List CompletionEffect) (h : drainAll cs l = some (cs', effs)) :
    (cs.requeue_timer = true → cs'.requeue_timer = true) ∧
    (cs.requeue_park = true → cs'.requeue_park = true) := by
  induction l generalizing cs effs with
  | nil =>
    unfold drainAll at h
    cases h
    exact ⟨id, id⟩
  | cons c rest ih =>
    unfold drainAll at h
    split at h
    · cases h
    · rename_i s1 e1 hh
      split at h
      · cases h
      · rename_i s2 es2 hd
        cases h
        have h1 := handle_completion_mono cs c.user_data ⟨c.res, c.flags⟩ (s1, e1) hh
        have h2 := ih s1 es2 hd
        exact ⟨fun ht => h2.1 (h1.1 ht), fun ht => h2.2 (h1.2 ht)⟩

/-- Characterization of `check_completions` on a successful drain. -/
theorem check_completions_eq (inner i' : Inner) (r : Bool)
    (effs : List CompletionEffect)
    (h : inner.check_completions = some (i', r, effs)) :
    drainAll inner.completion_state inner.uring.cq =
      some (i'.completion_state, effs) ∧
    r = !inner.uring.cq.isEmpty ∧
    i'.uring = { inner.uring with cq := [] } ∧
    i'.timerfd_fd = inner.timerfd_fd ∧
    i'.timerfd_state = inner.timerfd_state := by
  unfold Inner.check_completions at h
  cases hd : drainAll inner.completion_state inner.uring.cq with
  | none =>
    rw [hd] at h
    cases h
  | some p =>
    obtain ⟨cs', es⟩ := p
    rw [hd] at h
    cases h
    exact ⟨rfl, rfl, rfl, rfl, rfl⟩

/-- With no immediately available completion, `check_completions` only
clears the (already empty) queue and reports nothing received. -/
theorem check_completions_nil (inner : Inner) (hcq : inner.uring.cq = []) :
    inner.check_completions =
      some ({ inner with uring := { inner.uring with cq := [] } }, false, []) := by
  unfold Inner.check_completions
  rw [hcq]
  simp [drainAll]

/-! ## Supporting lemmas for the watch-submission claims -/

/-- On a full submission queue the timer watch helper fails and leaves
the state unchanged. -/
theorem queue_timer_poll_full (inner : Inner) (hq : inner.uring.sq_free = 0) :
    inner.queue_timer_poll = (inner, false) := by
  simp [Inner.queue_timer_poll, Uring.submit_with, hq]

/-- On a full submission queue the park watch helper fails and leaves
the state unchanged. -/
theorem queue_park_read_full (inner : Inner) (hq : inner.uring.sq_free = 0) :
    inner.queue_park_read = (inner, false) := by
  simp [Inner.queue_park_read, Uring.submit_with, hq]

/-- The park watch helper never touches the requeue flags. -/
theorem queue_park_read_preserves (inner : Inner) :
    ((inner.queue_park_read).1.completion_state.requeue_timer
      = inner.completion_state.requeue_timer) ∧
    ((inner.queue_park_read).1.completion_state.requeue_park
      = inner.completion_state.requeue_park) := by
  by_cases hq : inner.uring.sq_free = 0 <;>
    simp [Inner.queue_park_read, Uring.submit_with, hq]

/-- The `set_state` step touches only the timerfd state and the
`timer_pending` flag. -/
theorem parkTimerSet_spec (inner : Inner) (timeout : Option Duration) :
    (inner.parkTimerSet timeout).1.uring = inner.uring ∧
    (inner.parkTimerSet timeout).1.completion_state.requeue_timer
      = inner.completion_state.requeue_timer ∧
    (inner.parkTimerSet timeout).1.completion_state.requeue_park
      = inner.completion_state.requeue_park ∧
    (inner.parkTimerSet timeout).1.completion_state.park
      = inner.completion_state.park := by
  cases timeout <;>
    by_cases hp : inner.completion_state.timer_pending <;>
    simp [Inner.parkTimerSet, hp]

/-- If the timer block leaves `wait` true, the timer watch ended up
armed: `requeue_timer` is false afterwards. -/
theorem parkTimerBlock_wait_true (inner i1 : Inner) (timeout : Option Duration)
    (sets : List TimerState)
    (h : inner.parkTimerBlock timeout = (i1, true, sets)) :
    i1.completion_state.requeue_timer = false := by
  unfold Inner.parkTimerBlock at h
  split at h
  rename_i innerS setsS hts
  split at h
  · split at h
    · cases h
    · rename_i innerQ hqv
      cases h
      rfl
  · rename_i hrt
    cases h
    simpa using hrt

/-- With the timer watch unarmed and the ring full, the timer block
downgrades `wait` and keeps `requeue_timer` set. -/
theorem parkTimerBlock_full (inner : Inner) (timeout : Option Duration)
    (hrt : inner.completion_state.requeue_timer = true)
    (hq : inner.uring.sq_free = 0) :
    inner.parkTimerBlock timeout =
      ((inner.parkTimerSet timeout).1, false, (inner.parkTimerSet timeout).2) ∧
    (inner.parkTimerSet timeout).1.completion_state.requeue_timer = true := by
  have hs := parkTimerSet_spec inner timeout
  unfold Inner.parkTimerBlock
  rcases hts : inner.parkTimerSet timeout with ⟨innerS, setsS⟩
  rw [hts] at hs
  simp only at hs
  have hrt' : innerS.completion_state.requeue_timer = true := hs.2.1.trans hrt
  have hq' : innerS.uring.sq_free = 0 := by rw [hs.1]; exact hq
  simp [hrt', queue_timer_poll_full innerS hq']

/-- With the timer watch already armed, the timer block submits nothing
and leaves `wait` true. -/
theorem parkTimerBlock_skip (inner : Inner) (timeout : Option Duration)
    (hrt : inner.completion_state.requeue_timer = false) :
    inner.parkTimerBlock timeout =
      ((inner.parkTimerSet timeout).1, true, (inner.parkTimerSet timeout).2) := by
  have hs := parkTimerSet_spec inner timeout
  unfold Inner.parkTimerBlock
  rcases hts : inner.parkTimerSet timeout with ⟨innerS, setsS⟩
  rw [hts] at hs
  simp only at hs
  have hrt' : innerS.completion_state.requeue_timer = false := hs.2.1.trans hrt
  simp [hrt']

/-- Draining completions never clears a set requeue flag
(`check_completions` version of `drainAll_mono`). -/
theorem check_completions_mono (inner i' : Inner) (r : Bool)
    (effs : List CompletionEffect)
    (h : inner.check_completions = some (i', r, effs)) :
    (inner.completion_state.requeue_timer = true →
      i'.completion_state.requeue_timer = true) ∧
    (inner.completion_state.requeue_park = true →
      i'.completion_state.requeue_park = true) := by
  have hc := check_completions_eq inner i' r effs h
  exact drainAll_mono _ _ _ _ hc.1

/-- A full submission queue makes `parkParkBlock` downgrade `wait` and
keep `requeue_park` set. -/
theorem parkParkBlock_full (inner : Inner)
    (hrp : inner.completion_state.requeue_park = true)
    (hq : inner.uring.sq_free = 0) :
    inner.parkParkBlock true = (inner, false) := by
  unfold Inner.parkParkBlock
  simp [hrp, queue_park_read_full inner hq]

/-- If `parkParkBlock` leaves `wait` true, the park watch ended up
armed (`requeue_park` false) and the timer flag is untouched. -/
theorem parkParkBlock_wait_true (inner i2 : Inner) (w : Bool)
    (h : inner.parkParkBlock w = (i2, true)) :
    w = true ∧
    i2.completion_state.requeue_timer = inner.completion_state.requeue_timer ∧
    i2.completion_state.requeue_park = false := by
  unfold Inner.parkParkBlock at h
  by_cases hc : (w && inner.completion_state.requeue_park) = true
  · rw [if_pos hc] at h
    rcases hq : inner.queue_park_read with ⟨iq, okq⟩
    have hpre := queue_park_read_preserves inner
    rw [hq] at h hpre
    simp only at hpre
    cases okq
    · simp at h
    · simp only [Prod.mk.injEq] at h
      have hi2 := h.1
      subst hi2
      have hc' : w = true ∧ inner.completion_state.requeue_park = true := by
        simpa using hc
      refine ⟨hc'.1, ?_, rfl⟩
      simpa using hpre.1
  · rw [if_neg hc] at h
    simp only [Prod.mk.injEq] at h
    have hw : w = true := h.2
    have hi2 := h.1
    subst hi2
    subst hw
    have hrp : inner.completion_state.requeue_park = false := by simpa using hc
    exact ⟨rfl, rfl, hrp⟩

/-- Composition shape of `parkRest` from its three stages. -/
theorem parkRest_eq (inner : Inner) (w : Bool) (timeout : Option Duration)
    (cq2 : List Cqe) (eok : Bool) (i1 : Inner) (w1 : Bool)
    (sets : List TimerState) (i2 : Inner) (w2 : Bool)
    (h1 : inner.parkWaitSetup w timeout = (i1, w1, sets))
    (h2 : i1.parkParkBlock w1 = (i2, w2)) :
    inner.parkRest w timeout cq2 eok = i2.parkFinish w2 sets cq2 eok := by
  simp [Inner.parkRest, h1, h2]

/-- Behaviour of the park-turn tail: the trace records exactly the
accumulated `set_state` calls; every enter call snapshots the requeue
flags of the state entering the tail; a blocking or GETEVENTS enter
requires `wait` still true; with `wait` false the enter is submit-only;
and set requeue flags survive the final drain. -/
theorem parkFinish_spec (inner : Inner) (w : Bool) (sets : List TimerState)
    (cq2 : List Cqe) (eok : Bool) (o : ParkOutcome)
    (h : inner.parkFinish w sets cq2 eok = some o) :
    o.trace.timer_sets = sets ∧
    (∀ ec, o.trace.enter = some ec →
      ec.requeue_timer_at = inner.completion_state.requeue_timer ∧
      ec.requeue_park_at = inner.completion_state.requeue_park ∧
      (ec.min_complete = 1 ∨ ec.getevents = true → w = true) ∧
      (w = false → ec.min_complete = 0 ∧ ec.getevents = false)) ∧
    (inner.completion_state.requeue_timer = true →
      o.inner.completion_state.requeue_timer = true) ∧
    (inner.completion_state.requeue_park = true →
      o.inner.completion_state.requeue_park = true) := by
  by_cases hg : inner.completion_state.park.enter.allow_wait = true <;> cases w
  case pos.true =>
    simp [Inner.parkFinish, hg] at h
    split at h
    · split at h
      · cases h
      · rename_i i2 r2 e2 hcc
        cases h
        refine ⟨rfl, ?_, fun ht => (check_completions_mono _ i2 r2 e2 hcc).1 ht,
                fun ht => (check_completions_mono _ i2 r2 e2 hcc).2 ht⟩
        intro ec hec
        cases hec
        refine ⟨rfl, rfl, fun _ => rfl, fun hf => nomatch hf⟩
    · cases h
      refine ⟨rfl, ?_, fun ht => ht, fun ht => ht⟩
      intro ec hec
      cases hec
      refine ⟨rfl, rfl, fun _ => rfl, fun hf => nomatch hf⟩
  case neg.true =>
    simp [Inner.parkFinish, hg] at h
    split at h
    · cases h
      refine ⟨rfl, ?_, fun ht => ht, fun ht => ht⟩
      intro ec hec
      exact nomatch hec
    · split at h
      · split at h
        · cases h
        · rename_i i2 r2 e2 hcc
          cases h
          refine ⟨rfl, ?_, fun ht => (check_completions_mono _ i2 r2 e2 hcc).1 ht,
                  fun ht => (check_completions_mono _ i2 r2 e2 hcc).2 ht⟩
          intro ec hec
          cases hec
          refine ⟨rfl, rfl, ?_, ?_⟩
          · intro hx
            rcases hx with hx | hx
            · exact absurd hx (by simp)
            · exact nomatch hx
          · intro hf
            exact ⟨rfl, rfl⟩
      · cases h
        refine ⟨rfl, ?_, fun ht => ht, fun ht => ht⟩
        intro ec hec
        cases hec
        refine ⟨rfl, rfl, ?_, ?_⟩
        · intro hx
          rcases hx with hx | hx
          · exact absurd hx (by simp)
          · exact nomatch hx
        · intro hf
          exact ⟨rfl, rfl⟩

  case pos.false =>
    simp [Inner.parkFinish, hg] at h
    split at h
    · cases h
      refine ⟨rfl, ?_, fun ht => ht, fun ht => ht⟩
      intro ec hec
      exact nomatch hec
    · split at h
      · split at h
        · cases h
        · rename_i i2 r2 e2 hcc
          cases h
          refine ⟨rfl, ?_, fun ht => (check_completions_mono _ i2 r2 e2 hcc).1 ht,
                  fun ht => (check_completions_mono _ i2 r2 e2 hcc).2 ht⟩
          intro ec hec
          cases hec
          refine ⟨rfl, rfl, ?_, ?_⟩
          · intro hx
            rcases hx with hx | hx
            · exact absurd hx (by simp)
            · exact nomatch hx
          · intro hf
            exact ⟨rfl, rfl⟩
      · cases h
        refine ⟨rfl, ?_, fun ht => ht, fun ht => ht⟩
        intro ec hec
        cases hec
        refine ⟨rfl, rfl, ?_, ?_⟩
        · intro hx
          rcases hx with hx | hx
          · exact absurd hx (by simp)
          · exact nomatch hx
        · intro hf
          exact ⟨rfl, rfl⟩

  case neg.false =>
    simp [Inner.parkFinish, hg] at h
    split at h
    · cases h
      refine ⟨rfl, ?_, fun ht => ht, fun ht => ht⟩
      intro ec hec
      exact nomatch hec
    · split at h
      · split at h
        · cases h
        · rename_i i2 r2 e2 hcc
          cases h
          refine ⟨rfl, ?_, fun ht => (check_completions_mono _ i2 r2 e2 hcc).1 ht,
                  fun ht => (check_completions_mono _ i2 r2 e2 hcc).2 ht⟩
          intro ec hec
          cases hec
          refine ⟨rfl, rfl, ?_, ?_⟩
          · intro hx
            rcases hx with hx | hx
            · exact absurd hx (by simp)
            · exact nomatch hx
          · intro hf
            exact ⟨rfl, rfl⟩
      · cases h
        refine ⟨rfl, ?_, fun ht => ht, fun ht => ht⟩
        intro ec hec
        cases hec
        refine ⟨rfl, rfl, ?_, ?_⟩
        · intro hx
          rcases hx with hx | hx
          · exact absurd hx (by simp)
          · exact nomatch hx
        · intro hf
          exact ⟨rfl, rfl⟩


/-- A park turn whose effective wait is already `false` arms no timer
and, if it calls `io_uring_enter` at all, does so submit-only
(`min_complete = 0`, no `GETEVENTS`). -/
theorem parkRest_nowait (inner : Inner) (timeout : Option Duration)
    (cq2 : List Cqe) (eok : Bool) (o : ParkOutcome)
    (h : inner.parkRest false timeout cq2 eok = some o) :
    o.trace.timer_sets = [] ∧
    ∀ ec, o.trace.enter = some ec →
      ec.min_complete = 0 ∧ ec.getevents = false := by
  rw [parkRest_eq inner false timeout cq2 eok inner false [] inner false
    (by simp [Inner.parkWaitSetup]) (by simp [Inner.parkParkBlock])] at h
  have fs := parkFinish_spec inner false [] cq2 eok o h
  exact ⟨fs.1, fun ec hec => (fs.2.1 ec hec).2.2.2 rfl⟩

/-- A park turn entered with `wait = false` behaves like `parkRest`
with effective wait `false`: no timer arming, no blocking enter. -/
theorem park_inner_nowait (inner : Inner) (timeout : Option Duration)
    (cq2 : List Cqe) (eok : Bool) (o : ParkOutcome)
    (h : inner.park_inner false timeout cq2 eok = some o) :
    o.trace.timer_sets = [] ∧
    ∀ ec, o.trace.enter = some ec →
      ec.min_complete = 0 ∧ ec.getevents = false := by
  unfold Inner.park_inner at h
  split at h
  · cases h
  · rename_i i1 received effs hc
    simp only [if_neg, ite_self, Bool.if_false_right, Bool.and_false] at h
    exact parkRest_nowait _ _ _ _ _ h

/-- Concrete reactor state with one ready tag-0 completion and one
pending submission. -/
def innerWCq : Inner :=
  { uring := { sq_free := 1, pending := 1, submitted := [], cq := [⟨0, 0, 0⟩] }
    completion_state := { csW with active_wait := 0 }
    timerfd_fd := 4
    timerfd_state := .Disarmed }

/-- Submit-only enter call produced by the concrete turns below. -/
def ecWCq : EnterCall :=
  { to_submit := 1
    min_complete := 0
    getevents := false
    requeue_timer_at := false
    requeue_park_at := false }

/-- Outcome of the concrete C1 witness turn. -/
def oWCq : ParkOutcome :=
  { inner := { uring := { sq_free := 1, pending := 0, submitted := [], cq := [] }
               completion_state := { csW with active_wait := 0 }
               timerfd_fd := 4
               timerfd_state := .Disarmed }
    trace := { timer_sets := [], enter := some ecWCq }
    io_ok := true }

/-- Concrete reactor state with an empty completion queue and one
pending submission. -/
def innerWPend : Inner :=
  { innerW with uring := { innerW.uring with pending := 1 } }

/-- Submit-only enter call of the concrete C6 witness turn. -/
def ecWPend : EnterCall := ecWCq

/-- Outcome of the concrete C6 witness turn. -/
def oWPend : ParkOutcome := { oWCq with trace := { timer_sets := [], enter := some ecWPend } }

/-! ## Claim C1 — park never blocks after draining completions -/

/-- C1: in any park turn (`park` and `park_timeout` both run
`park_inner`), if the initial non-blocking drain observes at least one
completion, the turn never blocks in the kernel: the `enter` call, if
made at all, has `min_complete = 0` and no `GETEVENTS`, whatever wait
mode the caller requested. -/
theorem park_drained_never_blocks (inner : Inner) (wait0 : Bool)
    (timeout : Option Duration) (cq2 : List Cqe) (eok : Bool) (o : ParkOutcome)
    (hcq : inner.uring.cq ≠ [])
    (hp : inner.park_inner wait0 timeout cq2 eok = some o) :
    ∀ ec, o.trace.enter = some ec →
      ec.min_complete = 0 ∧ ec.getevents = false := by
  unfold Inner.park_inner at hp
  split at hp
  · cases hp
  · rename_i i1 received effs hc
    have hr : received = true := by
      have := (check_completions_eq inner i1 received effs hc).2.1
      rw [this]
      simp [List.isEmpty_eq_true, hcq]
    subst hr
    simp only [if_pos, if_true, ite_self] at hp
    exact (parkRest_nowait _ _ _ _ _ hp).2

/-- Witness for C1: a concrete turn that drains one tag-0 completion
with one pending submission makes a submit-only enter call. -/
theorem park_drained_never_blocks_witness :
    innerWCq.park_inner true none [] true = some oWCq ∧
    oWCq.trace.enter = some ecWCq ∧
    ecWCq.min_complete = 0 ∧ ecWCq.getevents = false := by
  refine ⟨by decide, by decide, ?_⟩
  exact park_drained_never_blocks innerWCq true none [] true oWCq
    (by decide) (by decide) ecWCq (by decide)

/-! ## Claim C6 — zero-duration park_timeout is poll-only -/

/-- C6: `park_timeout` with the zero duration runs `park_inner` with
`wait` already `false`: the turn makes no `timerfd.set_state` call at
all (in particular it never arms a deadline) and any enter call is
submit-only (`min_complete = 0`, no `GETEVENTS`). -/
theorem park_timeout_zero_poll_only (inner : Inner) (cq2 : List Cqe)
    (eok : Bool) :
    (inner.park_timeout ⟨0, 0⟩ cq2 eok = inner.park_inner false none cq2 eok) ∧
    ∀ o, inner.park_timeout ⟨0, 0⟩ cq2 eok = some o →
      o.trace.timer_sets = [] ∧
      ∀ ec, o.trace.enter = some ec →
        ec.min_complete = 0 ∧ ec.getevents = false := by
  have hd : inner.park_timeout ⟨0, 0⟩ cq2 eok =
      inner.park_inner false none cq2 eok := by
    simp [Inner.park_timeout]
  refine ⟨hd, ?_⟩
  intro o ho
  rw [hd] at ho
  exact park_inner_nowait inner none cq2 eok o ho

/-- Witness for C6: a concrete zero-duration `park_timeout` with a
pending submission sets no timer and enters submit-only. -/
theorem park_timeout_zero_poll_only_witness :
    innerWPend.park_timeout ⟨0, 0⟩ [] true = some oWPend ∧
    oWPend.trace.timer_sets = [] ∧
    oWPend.trace.enter = some ecWPend ∧
    ecWPend.min_complete = 0 ∧ ecWPend.getevents = false := by
  have h := (park_timeout_zero_poll_only innerWPend [] true).2 oWPend (by decide)
  refine ⟨by decide, h.1, by decide, ?_⟩
  exact h.2 ecWPend (by decide)

/-- Scenario: blocking turn, timer watch unarmed, ring full.  The turn
is downgraded to submit-only and `requeue_timer` stays set through the
final drain. -/
theorem parkRest_timer_full (inner : Inner) (timeout : Option Duration)
    (cq2 : List Cqe) (eok : Bool) (o : ParkOutcome)
    (hrt : inner.completion_state.requeue_timer = true)
    (hq : inner.uring.sq_free = 0)
    (h : inner.parkRest true timeout cq2 eok = some o) :
    (∀ ec, o.trace.enter = some ec →
      ec.min_complete = 0 ∧ ec.getevents = false) ∧
    o.inner.completion_state.requeue_timer = true := by
  have hb := parkTimerBlock_full inner timeout hrt hq
  rw [parkRest_eq inner true timeout cq2 eok
      (inner.parkTimerSet timeout).1 false (inner.parkTimerSet timeout).2
      (inner.parkTimerSet timeout).1 false
      (by simp [Inner.parkWaitSetup, hb.1]) (by simp [Inner.parkParkBlock])] at h
  have fs := parkFinish_spec _ false _ cq2 eok o h
  exact ⟨fun ec hec => (fs.2.1 ec hec).2.2.2 rfl, fs.2.2.1 hb.2⟩

/-- Scenario: blocking turn, timer watch armed, park watch unarmed,
ring full.  The turn is downgraded to submit-only and `requeue_park`
stays set through the final drain. -/
theorem parkRest_park_full (inner : Inner) (timeout : Option Duration)
    (cq2 : List Cqe) (eok : Bool) (o : ParkOutcome)
    (hrt : inner.completion_state.requeue_timer = false)
    (hrp : inner.completion_state.requeue_park = true)
    (hq : inner.uring.sq_free = 0)
    (h : inner.parkRest true timeout cq2 eok = some o) :
    (∀ ec, o.trace.enter = some ec →
      ec.min_complete = 0 ∧ ec.getevents = false) ∧
    o.inner.completion_state.requeue_park = true := by
  have hs := parkTimerSet_spec inner timeout
  have hb := parkTimerBlock_skip inner timeout hrt
  have hrp1 : (inner.parkTimerSet timeout).1.completion_state.requeue_park = true :=
    hs.2.2.1.trans hrp
  have hq1 : (inner.parkTimerSet timeout).1.uring.sq_free = 0 := by
    rw [hs.1]
    exact hq
  rw [parkRest_eq inner true timeout cq2 eok
      (inner.parkTimerSet timeout).1 true (inner.parkTimerSet timeout).2
      (inner.parkTimerSet timeout).1 false
      (by simp [Inner.parkWaitSetup, hb]) (parkParkBlock_full _ hrp1 hq1)] at h
  have fs := parkFinish_spec _ false _ cq2 eok o h
  exact ⟨fun ec hec => (fs.2.1 ec hec).2.2.2 rfl, fs.2.2.2 hrp1⟩

/-- Whenever a turn blocks in the kernel (`min_complete = 1`), both
auxiliary watches were armed at the moment of the enter call. -/
theorem parkRest_block_flags (inner : Inner) (w : Bool)
    (timeout : Option Duration) (cq2 : List Cqe) (eok : Bool) (o : ParkOutcome)
    (h : inner.parkRest w timeout cq2 eok = some o) :
    ∀ ec, o.trace.enter = some ec → ec.min_complete = 1 →
      ec.requeue_timer_at = false ∧ ec.requeue_park_at = false := by
  intro ec hec hmc
  rcases h1 : inner.parkWaitSetup w timeout with ⟨i1, w1, sets⟩
  rcases h2 : i1.parkParkBlock w1 with ⟨i2, w2⟩
  rw [parkRest_eq inner w timeout cq2 eok i1 w1 sets i2 w2 h1 h2] at h
  have fs := parkFinish_spec i2 w2 sets cq2 eok o h
  have hw2 : w2 = true := (fs.2.1 ec hec).2.2.1 (Or.inl hmc)
  subst hw2
  have hpb := parkParkBlock_wait_true i1 i2 w1 h2
  have hw1 : w1 = true := hpb.1
  subst hw1
  have hts : inner.parkTimerBlock timeout = (i1, true, sets) := by
    unfold Inner.parkWaitSetup at h1
    by_cases hw : w = true
    · rw [if_pos hw] at h1
      exact h1
    · rw [if_neg hw] at h1
      simp at h1
  have hrt1 : i1.completion_state.requeue_timer = false :=
    parkTimerBlock_wait_true inner i1 timeout sets hts
  constructor
  · rw [(fs.2.1 ec hec).1, hpb.2.1, hrt1]
  · rw [(fs.2.1 ec hec).2.1, hpb.2.2]

/-! ## Claim C7 — failed watch submission downgrades to poll-only -/

/-- C7: in a park turn that decided to block, a ring-full failure while
submitting the timer poll watch (resp. the wake-primitive poll watch)
downgrades the turn to submit-only (`min_complete = 0`, no `GETEVENTS`)
and leaves the corresponding requeue flag set for a retry on a later
turn; moreover any blocking enter call (`min_complete = 1`) happens
only with both auxiliary watches armed (both requeue flags false at the
call). -/
theorem park_submit_failure_downgrades (inner : Inner)
    (timeout : Option Duration) (cq2 : List Cqe) (eok : Bool)
    (o : ParkOutcome) :
    (inner.uring.cq = [] → inner.completion_state.park.event_set = false →
     inner.completion_state.requeue_timer = true →
     inner.uring.sq_free = 0 →
     inner.park_inner true timeout cq2 eok = some o →
     (∀ ec, o.trace.enter = some ec →
        ec.min_complete = 0 ∧ ec.getevents = false) ∧
     o.inner.completion_state.requeue_timer = true) ∧
    (inner.uring.cq = [] → inner.completion_state.park.event_set = false →
     inner.completion_state.requeue_timer = false →
     inner.completion_state.requeue_park = true →
     inner.uring.sq_free = 0 →
     inner.park_inner true timeout cq2 eok = some o →
     (∀ ec, o.trace.enter = some ec →
        ec.min_complete = 0 ∧ ec.getevents = false) ∧
     o.inner.completion_state.requeue_park = true) ∧
    (inner.park_inner true timeout cq2 eok = some o →
     ∀ ec, o.trace.enter = some ec → ec.min_complete = 1 →
       ec.requeue_timer_at = false ∧ ec.requeue_park_at = false) := by
  refine ⟨?_, ?_, ?_⟩
  · intro hcq hev hrt hq hp
    unfold Inner.park_inner at hp
    rw [check_completions_nil inner hcq] at hp
    simp only [Bool.false_eq_true, if_false, Park.pending, hev, ite_self] at hp
    exact parkRest_timer_full
      { inner with uring := { inner.uring with cq := [] } } timeout cq2 eok o
      hrt hq hp
  · intro hcq hev hrt hrp hq hp
    unfold Inner.park_inner at hp
    rw [check_completions_nil inner hcq] at hp
    simp only [Bool.false_eq_true, if_false, Park.pending, hev, ite_self] at hp
    exact parkRest_park_full
      { inner with uring := { inner.uring with cq := [] } } timeout cq2 eok o
      hrt hrp hq hp
  · intro hp
    unfold Inner.park_inner at hp
    split at hp
    · cases hp
    · exact parkRest_block_flags _ _ timeout cq2 eok o hp

/-- Concrete reactor state: timer watch unarmed (`requeue_timer`),
full submission queue, one pending submission. -/
def innerWTFull : Inner :=
  { uring := { sq_free := 0, pending := 1, submitted := [], cq := [] }
    completion_state := { csW with active_wait := 0, requeue_timer := true }
    timerfd_fd := 4
    timerfd_state := .Disarmed }

/-- Outcome of the concrete C7 witness turn: submit-only enter, timer
flag retained. -/
def oWTFull : ParkOutcome :=
  { inner := { uring := { sq_free := 0, pending := 0, submitted := [], cq := [] }
               completion_state := { csW with active_wait := 0, requeue_timer := true }
               timerfd_fd := 4
               timerfd_state := .Disarmed }
    trace := { timer_sets := []
               enter := some { to_submit := 1
                               min_complete := 0
                               getevents := false
                               requeue_timer_at := true
                               requeue_park_at := false } }
    io_ok := true }

/-- Witness for C7: on a concrete blocking turn with a full ring and an
unarmed timer watch, the enter call is submit-only and `requeue_timer`
stays set. -/
theorem park_submit_failure_downgrades_witness :
    innerWTFull.park_inner true none [] true = some oWTFull ∧
    oWTFull.trace.enter =
      some { to_submit := 1
             min_complete := 0
             getevents := false
             requeue_timer_at := true
             requeue_park_at := false } ∧
    (0 = 0 ∧ false = false) ∧
    oWTFull.inner.completion_state.requeue_timer = true := by
  have h := (park_submit_failure_downgrades innerWTFull none [] true oWTFull).1
    (by decide) (by decide) (by decide) (by decide) (by decide)
  refine ⟨by decide, by decide, ?_, h.2⟩
  have h2 := h.1
    { to_submit := 1
      min_complete := 0
      getevents := false
      requeue_timer_at := true
      requeue_park_at := false } (by decide)
  exact h2

end TokioUring
